import Mathlib

/-!
Shallow embedding of the `digest` command-line utility (package `digest`,
file `digest/__init__.py`): a buffered-read digest engine (`digest`),
a parameter resolver (`parse_params`) and a batch driver (`main`).

The hashing algorithms themselves live in the external `hashlib` library;
they are modelled abstractly as a registry mapping an algorithm name to a
streaming hash accumulator.  A streaming accumulator's state is exactly the
sequence of bytes fed to it so far (`update` concatenates), and
finalization (`hexdigest`) is an arbitrary function of that byte sequence
(plus a requested length, for the variable-length SHAKE algorithms).
-/

namespace Digest

/-- An external hash algorithm, as exposed by `hashlib.new(name)`.
`varLength` marks the SHAKE-style algorithms whose `hexdigest` takes a
length argument.  For fixed-length algorithms `hexdigest` takes no
argument; calling it with one raises `TypeError`.  For variable-length
algorithms `hexdigest` requires the length; calling it with none raises
`TypeError`.  Both failure modes are modelled in `finalizeHex`. -/
structure HashAlg where
  varLength : Bool
  hexdigest : List Nat → String
  hexdigestLen : List Nat → Int → String

/-- The registry of available algorithms: `hashlib.new` returns an
accumulator for a known name and raises `ValueError` (modelled as `none`)
for an unknown one. -/
abbrev Registry := String → Option HashAlg

/-- One `f.readinto(buf)` call either returns some bytes (at most the
buffer size many; zero bytes means end of stream) or raises an I/O error. -/
inductive ReadResult where
  | bytes (b : List Nat)
  | ioError (msg : String)
deriving DecidableEq

/-- A readable byte source, modelled as the sequence of results the
successive `readinto` calls produce.  Once the list is exhausted every
further read returns zero bytes, so a finished list is end of stream. -/
abbrev ByteSource := List ReadResult

/-- The read loop of `digest`:
`while True: n = f.readinto(buf); if n <= 0: break; h.update(buf[:n])`.
It accumulates exactly the bytes each read actually returned (`buf[:n]`),
stops at the first zero-byte read (or end of the modelled read sequence),
and propagates an I/O exception as `Except.error`. -/
def readLoop : ByteSource → List Nat → Except String (List Nat)
  | [], acc => Except.ok acc
  | ReadResult.bytes b :: rest, acc =>
      if b.length = 0 then Except.ok acc else readLoop rest (acc ++ b)
  | ReadResult.ioError m :: _, _ => Except.error m

/-- Result of the `digest` function: a hex string, or the `DigestError`
exception it raises on any internal failure (every exception raised inside
the `try` block is caught and re-raised as
`DigestError(f"{algorithm}: {ex}")`). -/
inductive DigestOutcome where
  | ok (hex : String)
  | digestError (msg : String)
deriving DecidableEq

/-- Message of the `TypeError` raised by `h.hexdigest(n)` when the
algorithm's `hexdigest` takes no length argument (fixed-length algorithm).
The exact wording is a property of the Python runtime; only its identity
matters here. -/
def hexdigestTakesNoArgMsg : String := "hexdigest() takes no arguments (1 given)"

/-- Message of the `TypeError` raised by `h.hexdigest()` when the algorithm
is variable-length and so requires a length argument. -/
def hexdigestNeedsLengthMsg : String := "hexdigest() missing required argument: length"

/-- Finalization step of `digest`: with a `digest_length`, call
`h.hexdigest(digest_length)` (valid only for variable-length algorithms);
without one, call `h.hexdigest()` (valid only for fixed-length
algorithms).  The invalid combinations raise `TypeError`. -/
def finalizeHex (h : HashAlg) (bytes : List Nat) (digest_length : Option Int) :
    Except String String :=
  match digest_length with
  | some n =>
      if h.varLength then Except.ok (h.hexdigestLen bytes n)
      else Except.error hexdigestTakesNoArgMsg
  | none =>
      if h.varLength then Except.error hexdigestNeedsLengthMsg
      else Except.ok (h.hexdigest bytes)

/-- The `digest` function of `digest/__init__.py`: instantiate the
accumulator via `hashlib.new(algorithm)`, run the buffered read loop,
finalize, and convert any exception into `DigestError`.  `bufsize` sizes
the `bytearray` buffer, so it only bounds how many bytes a single read can
return (see `goodSource`); it does not otherwise enter the computation. -/
def digest (reg : Registry) (f : ByteSource) (algorithm : String) (bufsize : Int)
    (digest_length : Option Int) : DigestOutcome :=
  match reg algorithm with
  | none =>
      DigestOutcome.digestError
        (algorithm ++ ": unsupported hash type " ++ algorithm)
  | some h =>
      match readLoop f [] with
      | Except.error m => DigestOutcome.digestError (algorithm ++ ": " ++ m)
      | Except.ok bytes =>
          match finalizeHex h bytes digest_length with
          | Except.ok d => DigestOutcome.ok d
          | Except.error m => DigestOutcome.digestError (algorithm ++ ": " ++ m)

/-- The bytes of a source, read errors disregarded: the underlying byte
sequence a fully successful sequence of reads would deliver. -/
def sourceBytes : ByteSource → List Nat
  | [] => []
  | ReadResult.bytes b :: rest => b ++ sourceBytes rest
  | ReadResult.ioError _ :: rest => sourceBytes rest

/-- A complete, error-free read of a stream with buffer size `bufsize`:
every read succeeds, returns at least one byte (no premature end-of-stream
marker) and at most `bufsize` bytes (a `readinto` into a `bytearray` of
size `bufsize` cannot return more). -/
def goodSource (f : ByteSource) (bufsize : Int) : Bool :=
  f.all fun r =>
    match r with
    | ReadResult.bytes b => decide (0 < b.length) && decide ((b.length : Int) ≤ bufsize)
    | ReadResult.ioError _ => false

/-- Digesting a byte sequence in one piece: what `digest` does after the
read loop, applied directly to a full byte sequence. -/
def digestOfBytes (reg : Registry) (algorithm : String) (bytes : List Nat)
    (digest_length : Option Int) : DigestOutcome :=
  match reg algorithm with
  | none =>
      DigestOutcome.digestError
        (algorithm ++ ": unsupported hash type " ++ algorithm)
  | some h =>
      match finalizeHex h bytes digest_length with
      | Except.ok d => DigestOutcome.ok d
      | Except.error m => DigestOutcome.digestError (algorithm ++ ": " ++ m)

/-- Default read buffer size: `BUFSIZE = 1024 * 16`. -/
def BUFSIZE : Int := 1024 * 16

/-- `DIGEST_LENGTH_REQUIRED = {"shake_128", "shake_256"}`: the algorithms
whose digest length must be supplied. -/
def DIGEST_LENGTH_REQUIRED : List String := ["shake_128", "shake_256"]

/-- The frozen `Params` dataclass produced by `parse_params`. -/
structure Params where
  buffer_size : Int
  digest_length : Option Int
  algorithm : String
  paths : List String
deriving DecidableEq

/-- The command-line argument values as they reach `argparse`: which
options were supplied and with what (integer-parsed) values, the
positional algorithm (or `none` when absent) and the positional paths. -/
structure RawArgs where
  bufsize : Option Int
  digestLength : Option Int
  algorithm : Option String
  paths : List String
deriving DecidableEq

/-- Outcome of `parse_params`, including the `argparse` stage:
`usageError` is `argparse` rejecting the invocation (it prints usage to
standard error and calls `sys.exit(2)`); `digestErrorRaised` is the
`DigestError` that `parse_params` raises itself for a variable-length
algorithm without a digest length; `ok warned p` is a normal return, with
`warned` recording whether the ignored-digest-length warning was printed
to standard error. -/
inductive ParseOutcome where
  | usageError
  | digestErrorRaised (msg : String)
  | ok (warned : Bool) (p : Params)
deriving DecidableEq

/-- `positive_number`: parse an integer and require it positive, raising
`ValueError` (which `argparse` turns into a usage error) otherwise. -/
def positive_number (n : Int) : Except String Int :=
  if n ≤ 0 then Except.error "not a positive number" else Except.ok n

/-- The -b (--bufsize) option: validated through `positive_number`,
defaulting to `BUFSIZE` when absent. -/
def argBufsize (raw : RawArgs) : Except String Int :=
  match raw.bufsize with
  | none => Except.ok BUFSIZE
  | some n => positive_number n

/-- The -l (--digest-length) option: validated through `positive_number`
when supplied, `none` when absent (no default). -/
def argDigestLength (raw : RawArgs) : Except String (Option Int) :=
  match raw.digestLength with
  | none => Except.ok none
  | some n => (positive_number n).map some

/-- The message of the `DigestError` raised when a variable-length
algorithm is selected without a digest length. -/
def lengthRequiredMsg (alg : String) : String :=
  "Digest algorithm " ++ alg ++
    " requires that you specify a digest length via -l or --digest-length."

/-- `parse_params`, parameterized by the available-algorithm list
(`ALGORITHMS = sorted(hashlib.algorithms_available)`, a property of the
platform's crypto library).  The `argparse` stage rejects a missing or
unknown algorithm (`choices=ALGORITHMS`) and non-positive numeric options.
Then: a variable-length algorithm without a digest length raises
`DigestError`; a fixed-length algorithm with a digest length gets the
length normalized to `None` with a warning; otherwise the values pass
through unchanged into the returned `Params`. -/
def parse_params (algorithms : List String) (raw : RawArgs) : ParseOutcome :=
  match raw.algorithm with
  | none => ParseOutcome.usageError
  | some alg =>
      if alg ∈ algorithms then
        match argBufsize raw with
        | Except.error _ => ParseOutcome.usageError
        | Except.ok bs =>
            match argDigestLength raw with
            | Except.error _ => ParseOutcome.usageError
            | Except.ok dl =>
                if alg ∈ DIGEST_LENGTH_REQUIRED ∧ dl = none then
                  ParseOutcome.digestErrorRaised (lengthRequiredMsg alg)
                else if alg ∉ DIGEST_LENGTH_REQUIRED ∧ dl ≠ none then
                  ParseOutcome.ok true ⟨bs, none, alg, raw.paths⟩
                else
                  ParseOutcome.ok false ⟨bs, dl, alg, raw.paths⟩
      else ParseOutcome.usageError

/-- The warning printed to standard error when a digest length is supplied
for a fixed-length algorithm. -/
def warnMsg (alg : String) : String :=
  "WARNING: Digest length (-l) is ignored for " ++ alg ++ "."

/-- The skip notice printed to standard output for a path that is not an
existing regular file. -/
def skipLine (path : String) : String :=
  "*** Skipping non-file \"" ++ path ++ "\"."

/-- The filesystem as the batch driver sees it: which paths are existing
regular files (`os.path.isfile`), and the reads that opening a path in
binary mode delivers. -/
structure FileSystem where
  isfile : String → Bool
  contents : String → ByteSource

/-- Observable result of one whole process run: the exit code, the lines
printed to standard output and to standard error (each in order), and the
sources actually read (opened file paths, or `"<stdin>"`), in order. -/
structure RunResult where
  exitCode : Nat
  stdout : List String
  stderr : List String
  reads : List String
deriving DecidableEq

/-- What an uncaught `DigestError` escaping `main` leaves on standard
error (the interpreter prints a traceback ending in this line and the
process exits with status 1). -/
def tracebackLine (m : String) : String := "DigestError: " ++ m

/-- What `argparse` leaves on standard error when it rejects the
invocation, before calling `sys.exit(2)`. -/
def usageErrorLine : String := "usage: digest ..."

/-- The per-file loop of `main`: paths that are not regular files get a
skip notice and the loop continues; for a regular file the digest is
computed and printed as `ALGORITHM (path): digest` with the uppercased
algorithm name; a `DigestError` aborts the whole loop, printing
`Error: ...` to standard error and making `main` return 1. -/
def processPaths (reg : Registry) (fs : FileSystem) (p : Params) :
    List String → RunResult
  | [] => ⟨0, [], [], []⟩
  | path :: rest =>
      if fs.isfile path then
        match digest reg (fs.contents path) p.algorithm p.buffer_size
            p.digest_length with
        | DigestOutcome.ok d =>
            let r := processPaths reg fs p rest
            ⟨r.exitCode,
              (p.algorithm.toUpper ++ " (" ++ path ++ "): " ++ d) :: r.stdout,
              r.stderr, path :: r.reads⟩
        | DigestOutcome.digestError m => ⟨1, [], ["Error: " ++ m], [path]⟩
      else
        let r := processPaths reg fs p rest
        ⟨r.exitCode, skipLine path :: r.stdout, r.stderr, r.reads⟩

/-- A whole run of the program: `parse_params` (whose `DigestError` is
raised outside the `try` block of `main` and therefore escapes uncaught,
exiting 1; an `argparse` rejection exits 2), then either the
standard-input digest printed bare, or the per-file loop.  The
ignored-digest-length warning, when emitted, precedes everything else on
standard error. -/
def mainRun (reg : Registry) (algorithms : List String) (fs : FileSystem)
    (stdinSrc : ByteSource) (raw : RawArgs) : RunResult :=
  match parse_params algorithms raw with
  | ParseOutcome.usageError => ⟨2, [], [usageErrorLine], []⟩
  | ParseOutcome.digestErrorRaised m => ⟨1, [], [tracebackLine m], []⟩
  | ParseOutcome.ok warned p =>
      let warnings := if warned then [warnMsg p.algorithm] else []
      let r :=
        if p.paths.isEmpty then
          match digest reg stdinSrc p.algorithm p.buffer_size
              p.digest_length with
          | DigestOutcome.ok d => ⟨0, [d], [], ["<stdin>"]⟩
          | DigestOutcome.digestError m =>
              ⟨1, [], ["Error: " ++ m], ["<stdin>"]⟩
        else processPaths reg fs p p.paths
      ⟨r.exitCode, r.stdout, warnings ++ r.stderr, r.reads⟩

theorem readLoop_good (bufsize : Int) :
    ∀ (f : ByteSource) (acc : List Nat), goodSource f bufsize = true →
      readLoop f acc = Except.ok (acc ++ sourceBytes f)
  | [], acc, _ => by simp [readLoop, sourceBytes]
  | ReadResult.bytes b :: rest, acc, h => by
      simp only [goodSource, List.all_cons, Bool.and_eq_true, decide_eq_true_eq] at h
      obtain ⟨⟨hb, _⟩, hrest⟩ := h
      have hne : ¬ b.length = 0 := by omega
      simp only [readLoop, if_neg hne, sourceBytes]
      rw [readLoop_good bufsize rest (acc ++ b) hrest, List.append_assoc]
  | ReadResult.ioError m :: rest, acc, h => by
      simp [goodSource, List.all_cons] at h

theorem digest_good (reg : Registry) (f : ByteSource) (algorithm : String)
    (bufsize : Int) (digest_length : Option Int)
    (h : goodSource f bufsize = true) :
    digest reg f algorithm bufsize digest_length
      = digestOfBytes reg algorithm (sourceBytes f) digest_length := by
  unfold digest digestOfBytes
  cases reg algorithm with
  | none => rfl
  | some halg =>
      rw [readLoop_good bufsize f [] h]
      rfl

theorem argBufsize_ok_of_pos (raw : RawArgs)
    (hbuf : ∀ k, raw.bufsize = some k → 0 < k) :
    ∃ bs, argBufsize raw = Except.ok bs ∧ 0 < bs := by
  cases hc : raw.bufsize with
  | none => exact ⟨BUFSIZE, by simp [argBufsize, hc], by decide⟩
  | some k =>
      have hk := hbuf k hc
      refine ⟨k, ?_, hk⟩
      unfold argBufsize positive_number
      rw [hc]
      dsimp only
      rw [if_neg (by omega)]

theorem argDigestLength_of_none (raw : RawArgs) (h : raw.digestLength = none) :
    argDigestLength raw = Except.ok none := by
  unfold argDigestLength
  rw [h]

theorem argDigestLength_of_some (raw : RawArgs) (n : Int)
    (h : raw.digestLength = some n) (hn : 0 < n) :
    argDigestLength raw = Except.ok (some n) := by
  unfold argDigestLength positive_number
  rw [h]
  dsimp only
  rw [if_neg (by omega)]
  rfl

theorem argDigestLength_ok_isSome (raw : RawArgs) (dl : Option Int)
    (h : argDigestLength raw = Except.ok dl) :
    dl.isSome = raw.digestLength.isSome := by
  unfold argDigestLength at h
  cases hc : raw.digestLength with
  | none =>
      rw [hc] at h
      injection h with h'
      rw [← h']
  | some n =>
      rw [hc] at h
      unfold positive_number at h
      dsimp only at h
      by_cases hn : n ≤ 0
      · rw [if_pos hn] at h
        exact Except.noConfusion h
      · rw [if_neg hn] at h
        injection h with h'
        rw [← h']

theorem parse_params_eval (algorithms : List String) (raw : RawArgs)
    (alg : String) (bs : Int) (dl : Option Int)
    (ha : raw.algorithm = some alg) (hmem : alg ∈ algorithms)
    (hbs : argBufsize raw = Except.ok bs)
    (hdl : argDigestLength raw = Except.ok dl) :
    parse_params algorithms raw =
      if alg ∈ DIGEST_LENGTH_REQUIRED ∧ dl = none then
        ParseOutcome.digestErrorRaised (lengthRequiredMsg alg)
      else if alg ∉ DIGEST_LENGTH_REQUIRED ∧ dl ≠ none then
        ParseOutcome.ok true ⟨bs, none, alg, raw.paths⟩
      else ParseOutcome.ok false ⟨bs, dl, alg, raw.paths⟩ := by
  unfold parse_params
  rw [ha]
  dsimp only
  rw [if_pos hmem, hbs]
  dsimp only
  rw [hdl]

/-- A small concrete registry used to instantiate the theorems below on
concrete inputs: a stand-in fixed-length algorithm under the name "md5"
and a stand-in variable-length one under "shake_128".  Their hex output
maps each byte to one of the characters a..f, so it is lowercase hex. -/
def regToy : Registry := fun a =>
  if a = "md5" then
    some ⟨false, fun bytes => if bytes = [] then "d41d8c" else "a1b2c3",
      fun _ _ => "aa"⟩
  else if a = "shake_128" then
    some ⟨true, fun _ => "bb",
      fun bytes n => if bytes = [] ∧ n = 0 then "ee" else "ff"⟩
  else none

/-- C1: for a fixed underlying byte sequence and algorithm, the digest is
independent of the buffer size: two complete, error-free reads of the same
byte sequence, chunked for any two positive buffer sizes, give the same
digest. -/
theorem digest_buffer_size_independent (reg : Registry) (algorithm : String)
    (digest_length : Option Int) (f1 f2 : ByteSource) (b1 b2 : Int)
    (hb1 : 0 < b1) (hb2 : 0 < b2)
    (h1 : goodSource f1 b1 = true) (h2 : goodSource f2 b2 = true)
    (hsame : sourceBytes f1 = sourceBytes f2) :
    digest reg f1 algorithm b1 digest_length
      = digest reg f2 algorithm b2 digest_length := by
  rw [digest_good reg f1 algorithm b1 digest_length h1,
    digest_good reg f2 algorithm b2 digest_length h2, hsame]

theorem digest_buffer_size_independent_witness :
    (0 : Int) < 2 ∧ (0 : Int) < 3 ∧
    goodSource [ReadResult.bytes [1, 2], ReadResult.bytes [3]] 2 = true ∧
    goodSource [ReadResult.bytes [1, 2, 3]] 3 = true ∧
    sourceBytes [ReadResult.bytes [1, 2], ReadResult.bytes [3]]
      = sourceBytes [ReadResult.bytes [1, 2, 3]] ∧
    digest regToy [ReadResult.bytes [1, 2], ReadResult.bytes [3]] "md5" 2 none
      = digest regToy [ReadResult.bytes [1, 2, 3]] "md5" 3 none :=
  ⟨by decide, by decide, by decide, by decide, by decide,
    digest_buffer_size_independent regToy "md5" none
      [ReadResult.bytes [1, 2], ReadResult.bytes [3]]
      [ReadResult.bytes [1, 2, 3]] 2 3 (by decide) (by decide) (by decide)
      (by decide) (by decide)⟩

/-- C2: over a complete error-free read sequence (each read returning
between 1 and `bufsize` bytes, reads shorter than the buffer included),
the read loop accumulates exactly the concatenation of the bytes each read
returned, terminating only at the zero-byte read marking end of stream,
and `digest` therefore equals the one-shot digest of that concatenation. -/
theorem digest_reads_exact (reg : Registry) (f : ByteSource)
    (algorithm : String) (bufsize : Int) (digest_length : Option Int)
    (hb : 0 < bufsize) (hf : goodSource f bufsize = true) :
    readLoop f [] = Except.ok (sourceBytes f) ∧
    digest reg f algorithm bufsize digest_length
      = digestOfBytes reg algorithm (sourceBytes f) digest_length :=
  ⟨by simpa using readLoop_good bufsize f [] hf,
    digest_good reg f algorithm bufsize digest_length hf⟩

theorem digest_reads_exact_witness :
    (0 : Int) < 2 ∧
    goodSource [ReadResult.bytes [5], ReadResult.bytes [6, 7],
      ReadResult.bytes [8]] 2 = true ∧
    readLoop [ReadResult.bytes [5], ReadResult.bytes [6, 7],
        ReadResult.bytes [8]] []
      = Except.ok (sourceBytes [ReadResult.bytes [5], ReadResult.bytes [6, 7],
        ReadResult.bytes [8]]) ∧
    digest regToy [ReadResult.bytes [5], ReadResult.bytes [6, 7],
        ReadResult.bytes [8]] "md5" 2 none
      = digestOfBytes regToy "md5"
          (sourceBytes [ReadResult.bytes [5], ReadResult.bytes [6, 7],
            ReadResult.bytes [8]]) none :=
  ⟨by decide, by decide,
    digest_reads_exact regToy
      [ReadResult.bytes [5], ReadResult.bytes [6, 7], ReadResult.bytes [8]]
      "md5" 2 none (by decide) (by decide)⟩

/-- A small concrete filesystem used to instantiate the theorems below:
two regular files, "a.txt" and "c.txt". -/
def fsToy : FileSystem :=
  ⟨fun path => path == "a.txt" || path == "c.txt",
    fun path =>
      if path == "a.txt" then [ReadResult.bytes [1, 2]]
      else if path == "c.txt" then [ReadResult.bytes [3]]
      else []⟩

/-- C3: a variable-length algorithm (member of `DIGEST_LENGTH_REQUIRED`)
with no digest length supplied makes parameter resolution fail with the
required-length error before any file or standard-input I/O: no `Params`
record is ever produced (no default is substituted), nothing is read,
nothing is printed to standard output, and the process exits non-zero. -/
theorem missing_digest_length_fails (reg : Registry) (algorithms : List String)
    (fs : FileSystem) (stdinSrc : ByteSource) (raw : RawArgs) (alg : String)
    (ha : raw.algorithm = some alg) (hmem : alg ∈ algorithms)
    (hvar : alg ∈ DIGEST_LENGTH_REQUIRED) (hdl : raw.digestLength = none)
    (hbuf : ∀ k, raw.bufsize = some k → 0 < k) :
    parse_params algorithms raw
      = ParseOutcome.digestErrorRaised (lengthRequiredMsg alg) ∧
    (∀ w p, parse_params algorithms raw ≠ ParseOutcome.ok w p) ∧
    mainRun reg algorithms fs stdinSrc raw
      = ⟨1, [], [tracebackLine (lengthRequiredMsg alg)], []⟩ := by
  obtain ⟨bs, hbs, _⟩ := argBufsize_ok_of_pos raw hbuf
  have hdl' := argDigestLength_of_none raw hdl
  have hp := parse_params_eval algorithms raw alg bs none ha hmem hbs hdl'
  rw [if_pos ⟨hvar, rfl⟩] at hp
  refine ⟨hp, ?_, ?_⟩
  · intro w p h
    rw [hp] at h
    exact ParseOutcome.noConfusion h
  · unfold mainRun
    rw [hp]

theorem missing_digest_length_fails_witness :
    (⟨none, none, some "shake_128", []⟩ : RawArgs).algorithm
        = some "shake_128" ∧
    "shake_128" ∈ ["md5", "shake_128"] ∧
    "shake_128" ∈ DIGEST_LENGTH_REQUIRED ∧
    (⟨none, none, some "shake_128", []⟩ : RawArgs).digestLength = none ∧
    mainRun regToy ["md5", "shake_128"] fsToy []
        ⟨none, none, some "shake_128", []⟩
      = ⟨1, [], [tracebackLine (lengthRequiredMsg "shake_128")], []⟩ :=
  ⟨rfl, by decide, by decide, rfl,
    (missing_digest_length_fails regToy ["md5", "shake_128"] fsToy []
      ⟨none, none, some "shake_128", []⟩ "shake_128" rfl (by decide)
      (by decide) rfl (fun k h => Option.noConfusion h)).2.2⟩

/-- C4: every `Params` record `parse_params` returns satisfies the
invariant that the digest length is present exactly when the algorithm is
variable-length; for a fixed-length algorithm the length is always `none`,
and when the caller had supplied one anyway the warning flag is set. -/
theorem params_digest_length_invariant (algorithms : List String)
    (raw : RawArgs) (w : Bool) (p : Params)
    (h : parse_params algorithms raw = ParseOutcome.ok w p) :
    (p.digest_length.isSome = true ↔ p.algorithm ∈ DIGEST_LENGTH_REQUIRED) ∧
    (p.algorithm ∉ DIGEST_LENGTH_REQUIRED → p.digest_length = none) ∧
    (p.algorithm ∉ DIGEST_LENGTH_REQUIRED → raw.digestLength.isSome = true →
      w = true) := by
  unfold parse_params at h
  split at h
  · exact ParseOutcome.noConfusion h
  · rename_i alg ha
    split at h
    · split at h
      · exact ParseOutcome.noConfusion h
      · rename_i bs hbs
        split at h
        · exact ParseOutcome.noConfusion h
        · rename_i dl hdl
          have hsome := argDigestLength_ok_isSome raw dl hdl
          split at h
          · exact ParseOutcome.noConfusion h
          · split at h
            · rename_i hreq hwarn
              injection h with hw hp
              subst hw hp
              refine ⟨?_, ?_, ?_⟩
              · simp only [Option.isSome_none]
                exact ⟨fun hc => Bool.noConfusion hc, fun hc => absurd hc hwarn.1⟩
              · intro _
                rfl
              · intro _ _
                rfl
            · rename_i hreq hkeep
              injection h with hw hp
              subst hw hp
              by_cases hset : alg ∈ DIGEST_LENGTH_REQUIRED
              · have hne : dl ≠ none := fun hc => hreq ⟨hset, hc⟩
                refine ⟨⟨fun _ => hset, fun _ => ?_⟩, fun hc => absurd hset hc,
                  fun hc => absurd hset hc⟩
                exact Option.isSome_iff_ne_none.mpr hne
              · have hdln : dl = none := by
                  by_contra hne
                  exact hkeep ⟨hset, hne⟩
                subst hdln
                refine ⟨?_, fun _ => rfl, ?_⟩
                · simp only [Option.isSome_none]
                  exact ⟨fun hc => Bool.noConfusion hc, fun hc => absurd hc hset⟩
                · intro _ hraw
                  rw [← hsome] at hraw
                  exact Bool.noConfusion hraw
    · exact ParseOutcome.noConfusion h

theorem params_digest_length_invariant_witness :
    parse_params ["md5"] ⟨none, some 3, some "md5", []⟩
        = ParseOutcome.ok true ⟨BUFSIZE, none, "md5", []⟩ ∧
    ((Params.mk BUFSIZE none "md5" []).digest_length.isSome = true ↔
      (Params.mk BUFSIZE none "md5" []).algorithm ∈ DIGEST_LENGTH_REQUIRED) :=
  ⟨by decide,
    (params_digest_length_invariant ["md5"] ⟨none, some 3, some "md5", []⟩
      true ⟨BUFSIZE, none, "md5", []⟩ (by decide)).1⟩

/-- C5: a fixed-length algorithm with an explicitly supplied positive
digest length resolves successfully with the warning flag set and the
length normalized to `none`; the run behaves exactly like the run without
the length (same exit code, same standard output — hence the same digest —
and same reads), except that the warning line is prepended to standard
error. -/
theorem ignored_length_warns (reg : Registry) (algorithms : List String)
    (fs : FileSystem) (stdinSrc : ByteSource) (raw : RawArgs) (alg : String)
    (n : Int) (ha : raw.algorithm = some alg) (hmem : alg ∈ algorithms)
    (hfix : alg ∉ DIGEST_LENGTH_REQUIRED) (hdl : raw.digestLength = some n)
    (hn : 0 < n) (hbuf : ∀ k, raw.bufsize = some k → 0 < k) :
    ∃ p, parse_params algorithms raw = ParseOutcome.ok true p ∧
      p.digest_length = none ∧
      parse_params algorithms { raw with digestLength := none }
        = ParseOutcome.ok false p ∧
      (mainRun reg algorithms fs stdinSrc raw).stdout
        = (mainRun reg algorithms fs stdinSrc
            { raw with digestLength := none }).stdout ∧
      (mainRun reg algorithms fs stdinSrc raw).exitCode
        = (mainRun reg algorithms fs stdinSrc
            { raw with digestLength := none }).exitCode ∧
      (mainRun reg algorithms fs stdinSrc raw).stderr
        = warnMsg alg :: (mainRun reg algorithms fs stdinSrc
            { raw with digestLength := none }).stderr := by
  obtain ⟨bs, hbs, _⟩ := argBufsize_ok_of_pos raw hbuf
  have h1 := parse_params_eval algorithms raw alg bs (some n) ha hmem hbs
    (argDigestLength_of_some raw n hdl hn)
  rw [if_neg (fun hc => Option.noConfusion hc.2),
    if_pos ⟨hfix, fun hc => Option.noConfusion hc⟩] at h1
  have hbs' : argBufsize { raw with digestLength := none } = Except.ok bs := hbs
  have h2 := parse_params_eval algorithms { raw with digestLength := none }
    alg bs none ha hmem hbs'
    (argDigestLength_of_none { raw with digestLength := none } rfl)
  rw [if_neg (fun hc => hfix hc.1)] at h2
  rw [if_neg (fun hc => hc.2 rfl)] at h2
  refine ⟨⟨bs, none, alg, raw.paths⟩, h1, rfl, h2, ?_, ?_, ?_⟩
  · unfold mainRun
    rw [h1, h2]
  · unfold mainRun
    rw [h1, h2]
  · unfold mainRun
    rw [h1, h2]
    simp

theorem ignored_length_warns_witness :
    (⟨none, some 7, some "md5", []⟩ : RawArgs).algorithm = some "md5" ∧
    "md5" ∈ ["md5", "shake_128"] ∧
    "md5" ∉ DIGEST_LENGTH_REQUIRED ∧
    (⟨none, some 7, some "md5", []⟩ : RawArgs).digestLength = some 7 ∧
    (0 : Int) < 7 ∧
    (∃ p, parse_params ["md5", "shake_128"] ⟨none, some 7, some "md5", []⟩
        = ParseOutcome.ok true p ∧
      p.digest_length = none ∧
      parse_params ["md5", "shake_128"]
          { (⟨none, some 7, some "md5", []⟩ : RawArgs) with
            digestLength := none }
        = ParseOutcome.ok false p ∧
      (mainRun regToy ["md5", "shake_128"] fsToy [ReadResult.bytes [1]]
          ⟨none, some 7, some "md5", []⟩).stdout
        = (mainRun regToy ["md5", "shake_128"] fsToy [ReadResult.bytes [1]]
            { (⟨none, some 7, some "md5", []⟩ : RawArgs) with
              digestLength := none }).stdout ∧
      (mainRun regToy ["md5", "shake_128"] fsToy [ReadResult.bytes [1]]
          ⟨none, some 7, some "md5", []⟩).exitCode
        = (mainRun regToy ["md5", "shake_128"] fsToy [ReadResult.bytes [1]]
            { (⟨none, some 7, some "md5", []⟩ : RawArgs) with
              digestLength := none }).exitCode ∧
      (mainRun regToy ["md5", "shake_128"] fsToy [ReadResult.bytes [1]]
          ⟨none, some 7, some "md5", []⟩).stderr
        = warnMsg "md5" :: (mainRun regToy ["md5", "shake_128"] fsToy
            [ReadResult.bytes [1]]
            { (⟨none, some 7, some "md5", []⟩ : RawArgs) with
              digestLength := none }).stderr) :=
  ⟨rfl, by decide, by decide, rfl, by decide,
    ignored_length_warns regToy ["md5", "shake_128"] fsToy
      [ReadResult.bytes [1]] ⟨none, some 7, some "md5", []⟩ "md5" 7 rfl
      (by decide) (by decide) rfl (by decide)
      (fun k h => Option.noConfusion h)⟩

/-- The hex string inside a successful `DigestOutcome` (junk for the error
case; only ever used where the outcome is known to be a success). -/
def extractHex : DigestOutcome → String
  | DigestOutcome.ok d => d
  | DigestOutcome.digestError m => m

/-- The line the batch driver prints to standard output for one path: the
skip notice for a non-file, the `ALGORITHM (path): digest` line for a
regular file. -/
def pathLine (reg : Registry) (fs : FileSystem) (p : Params)
    (path : String) : String :=
  if fs.isfile path then
    p.algorithm.toUpper ++ " (" ++ path ++ "): " ++
      extractHex (digest reg (fs.contents path) p.algorithm p.buffer_size
        p.digest_length)
  else skipLine path

theorem processPaths_all_ok (reg : Registry) (fs : FileSystem) (p : Params) :
    ∀ paths : List String,
      (∀ path ∈ paths, fs.isfile path = true →
        ∃ d, digest reg (fs.contents path) p.algorithm p.buffer_size
          p.digest_length = DigestOutcome.ok d) →
      processPaths reg fs p paths
        = ⟨0, paths.map (pathLine reg fs p), [],
            paths.filter (fun q => fs.isfile q)⟩
  | [], _ => rfl
  | path :: rest, h => by
      have hrest := processPaths_all_ok reg fs p rest
        (fun q hq hf => h q (List.mem_cons_of_mem _ hq) hf)
      cases hf : fs.isfile path with
      | true =>
          obtain ⟨d, hd⟩ := h path (List.mem_cons_self _ _) hf
          unfold processPaths
          rw [if_pos hf, hd, hrest]
          simp [pathLine, hf, hd, extractHex]
      | false =>
          unfold processPaths
          rw [if_neg (by simp [hf]), hrest]
          simp [pathLine, hf]

theorem processPaths_first_fail (reg : Registry) (fs : FileSystem)
    (p : Params) (bad : String) (m : String) (rest : List String)
    (hbadfile : fs.isfile bad = true)
    (hbaderr : digest reg (fs.contents bad) p.algorithm p.buffer_size
      p.digest_length = DigestOutcome.digestError m) :
    ∀ good : List String,
      (∀ path ∈ good, fs.isfile path = true →
        ∃ d, digest reg (fs.contents path) p.algorithm p.buffer_size
          p.digest_length = DigestOutcome.ok d) →
      processPaths reg fs p (good ++ bad :: rest)
        = ⟨1, good.map (pathLine reg fs p), ["Error: " ++ m],
            good.filter (fun q => fs.isfile q) ++ [bad]⟩
  | [], _ => by
      rw [List.nil_append]
      unfold processPaths
      rw [if_pos hbadfile, hbaderr]
      rfl
  | path :: good', h => by
      have hrest := processPaths_first_fail reg fs p bad m rest hbadfile
        hbaderr good' (fun q hq hf => h q (List.mem_cons_of_mem _ hq) hf)
      cases hf : fs.isfile path with
      | true =>
          obtain ⟨d, hd⟩ := h path (List.mem_cons_self _ _) hf
          rw [List.cons_append]
          unfold processPaths
          rw [if_pos hf, hd, hrest]
          simp [pathLine, hf, hd, extractHex]
      | false =>
          rw [List.cons_append]
          unfold processPaths
          rw [if_neg (by simp [hf]), hrest]
          simp [pathLine, hf]

/-- C6: paths that are not existing regular files are skipped with the
exact notice `*** Skipping non-file "<path>".` on standard output, the
batch continues with the next path, and when every digest computation on
the remaining (regular-file) paths succeeds the whole batch processes them
in order and exits 0 with nothing on standard error. -/
theorem skip_nonfile_continues (reg : Registry) (fs : FileSystem)
    (p : Params) (paths : List String)
    (hok : ∀ path ∈ paths, fs.isfile path = true →
      ∃ d, digest reg (fs.contents path) p.algorithm p.buffer_size
        p.digest_length = DigestOutcome.ok d) :
    (processPaths reg fs p paths).exitCode = 0 ∧
    (processPaths reg fs p paths).stdout = paths.map (pathLine reg fs p) ∧
    (∀ path ∈ paths, fs.isfile path = false →
      pathLine reg fs p path = "*** Skipping non-file \"" ++ path ++ "\".") ∧
    (processPaths reg fs p paths).stderr = [] := by
  rw [processPaths_all_ok reg fs p paths hok]
  refine ⟨rfl, rfl, ?_, rfl⟩
  intro path _ hf
  simp [pathLine, hf, skipLine]

theorem skip_nonfile_continues_witness :
    (∀ path ∈ ["a.txt", "missing", "c.txt"], fsToy.isfile path = true →
      ∃ d, digest regToy (fsToy.contents path) "md5" 2 none
        = DigestOutcome.ok d) ∧
    (processPaths regToy fsToy ⟨2, none, "md5", []⟩
      ["a.txt", "missing", "c.txt"]).exitCode = 0 ∧
    (processPaths regToy fsToy ⟨2, none, "md5", []⟩
        ["a.txt", "missing", "c.txt"]).stdout
      = ["a.txt", "missing", "c.txt"].map
          (pathLine regToy fsToy ⟨2, none, "md5", []⟩) ∧
    pathLine regToy fsToy ⟨2, none, "md5", []⟩ "missing"
      = "*** Skipping non-file \"missing\"." := by
  have hok : ∀ path ∈ ["a.txt", "missing", "c.txt"],
      fsToy.isfile path = true →
      ∃ d, digest regToy (fsToy.contents path) "md5" 2 none
        = DigestOutcome.ok d := by
    intro path hp hf
    fin_cases hp
    · exact ⟨_, rfl⟩
    · exact absurd hf (by decide)
    · exact ⟨_, rfl⟩
  have := skip_nonfile_continues regToy fsToy ⟨2, none, "md5", []⟩
    ["a.txt", "missing", "c.txt"] hok
  exact ⟨hok, this.1, this.2.1,
    this.2.2.1 "missing" (by decide) (by decide)⟩

/-- C7: in file mode, a `DigestError` from the Digest Engine on some file
aborts the whole batch: standard output holds lines only for the paths
before the failing one, the error is reported on standard error, the exit
code is 1, and no path after the failing one is read or printed. -/
theorem digest_error_aborts_batch (reg : Registry) (fs : FileSystem)
    (p : Params) (good : List String) (bad : String) (rest : List String)
    (m : String)
    (hgood : ∀ path ∈ good, fs.isfile path = true →
      ∃ d, digest reg (fs.contents path) p.algorithm p.buffer_size
        p.digest_length = DigestOutcome.ok d)
    (hbadfile : fs.isfile bad = true)
    (hbaderr : digest reg (fs.contents bad) p.algorithm p.buffer_size
      p.digest_length = DigestOutcome.digestError m) :
    processPaths reg fs p (good ++ bad :: rest)
      = ⟨1, good.map (pathLine reg fs p), ["Error: " ++ m],
          good.filter (fun q => fs.isfile q) ++ [bad]⟩ :=
  processPaths_first_fail reg fs p bad m rest hbadfile hbaderr good hgood

/-- A concrete filesystem with a file whose read fails halfway through. -/
def fsErr : FileSystem :=
  ⟨fun path => path == "a.txt" || path == "b.bin",
    fun path =>
      if path == "a.txt" then [ReadResult.bytes [1]]
      else if path == "b.bin" then
        [ReadResult.bytes [2], ReadResult.ioError "read failed"]
      else []⟩

theorem digest_error_aborts_batch_witness :
    fsErr.isfile "b.bin" = true ∧
    digest regToy (fsErr.contents "b.bin") "md5" 4 none
      = DigestOutcome.digestError "md5: read failed" ∧
    processPaths regToy fsErr ⟨4, none, "md5", []⟩
        (["a.txt"] ++ "b.bin" :: ["c.txt"])
      = ⟨1, ["a.txt"].map (pathLine regToy fsErr ⟨4, none, "md5", []⟩),
          ["Error: " ++ "md5: read failed"],
          ["a.txt"].filter (fun q => fsErr.isfile q) ++ ["b.bin"]⟩ := by
  refine ⟨by decide, by decide, ?_⟩
  exact digest_error_aborts_batch regToy fsErr ⟨4, none, "md5", []⟩
    ["a.txt"] "b.bin" ["c.txt"] "md5: read failed"
    (by
      intro path hp hf
      fin_cases hp
      exact ⟨_, rfl⟩)
    (by decide) (by decide)

/-- Whether a digest outcome is the `DigestError` case. -/
def isError : DigestOutcome → Bool
  | DigestOutcome.ok _ => false
  | DigestOutcome.digestError _ => true

/-- Whether the per-file loop hits a `DigestError` (skipped non-files do
not count). -/
def batchFails (reg : Registry) (fs : FileSystem) (p : Params) :
    List String → Bool
  | [] => false
  | path :: rest =>
      if fs.isfile path then
        match digest reg (fs.contents path) p.algorithm p.buffer_size
            p.digest_length with
        | DigestOutcome.ok _ => batchFails reg fs p rest
        | DigestOutcome.digestError _ => true
      else batchFails reg fs p rest

/-- Whether the run after successful parameter resolution hits a
`DigestError` (on standard input or on some file of the batch). -/
def runFails (reg : Registry) (fs : FileSystem) (stdinSrc : ByteSource)
    (p : Params) : Bool :=
  if p.paths.isEmpty then
    isError (digest reg stdinSrc p.algorithm p.buffer_size p.digest_length)
  else batchFails reg fs p p.paths

theorem processPaths_exitCode (reg : Registry) (fs : FileSystem)
    (p : Params) :
    ∀ paths : List String,
      (processPaths reg fs p paths).exitCode
        = if batchFails reg fs p paths then 1 else 0
  | [] => rfl
  | path :: rest => by
      by_cases hf : fs.isfile path = true
      · unfold processPaths batchFails
        rw [if_pos hf, if_pos hf]
        cases hd : digest reg (fs.contents path) p.algorithm p.buffer_size
            p.digest_length with
        | ok d =>
            dsimp only
            exact processPaths_exitCode reg fs p rest
        | digestError m => rfl
      · unfold processPaths batchFails
        rw [if_neg hf, if_neg hf]
        dsimp only
        exact processPaths_exitCode reg fs p rest

/-- C8 counterexample: an invocation with an unknown algorithm is one of
the usage-error cases the claim covers, but the process exit code is 2
(the `argparse` rejection exit status), not 1. -/
theorem exit_codes_counterexample :
    (mainRun regToy ["md5"] fsToy []
      ⟨none, none, some "sha999", []⟩).exitCode = 2 ∧
    (mainRun regToy ["md5"] fsToy []
      ⟨none, none, some "sha999", []⟩).exitCode ≠ 1 := by
  exact ⟨rfl, by decide⟩

/-- C8 (amended): exit code 0 on success; 2 on the usage errors that
`argparse` rejects (no algorithm, unknown algorithm, non-positive buffer
size or digest length); 1 on the missing-required-digest-length error
(the resolver's `DigestError`, which escapes `main` uncaught) and on any
unrecovered `DigestError` during digest computation. -/
theorem exit_codes (reg : Registry) (algorithms : List String)
    (fs : FileSystem) (stdinSrc : ByteSource) (raw : RawArgs) :
    (parse_params algorithms raw = ParseOutcome.usageError →
      (mainRun reg algorithms fs stdinSrc raw).exitCode = 2) ∧
    (∀ m, parse_params algorithms raw = ParseOutcome.digestErrorRaised m →
      (mainRun reg algorithms fs stdinSrc raw).exitCode = 1) ∧
    (∀ w p, parse_params algorithms raw = ParseOutcome.ok w p →
      (mainRun reg algorithms fs stdinSrc raw).exitCode
        = if runFails reg fs stdinSrc p then 1 else 0) := by
  refine ⟨?_, ?_, ?_⟩
  · intro h
    unfold mainRun
    rw [h]
  · intro m h
    unfold mainRun
    rw [h]
  · intro w p h
    unfold mainRun
    rw [h]
    dsimp only
    unfold runFails
    by_cases he : p.paths.isEmpty = true
    · rw [if_pos he, if_pos he]
      cases hd : digest reg stdinSrc p.algorithm p.buffer_size
          p.digest_length with
      | ok d => simp [isError]
      | digestError m => simp [isError]
    · rw [if_neg he, if_neg he]
      exact processPaths_exitCode reg fs p p.paths

theorem exit_codes_witness :
    parse_params ["md5"] ⟨none, none, none, []⟩ = ParseOutcome.usageError ∧
    (mainRun regToy ["md5"] fsToy []
      ⟨none, none, none, []⟩).exitCode = 2 :=
  ⟨rfl, (exit_codes regToy ["md5"] fsToy [] ⟨none, none, none, []⟩).1 rfl⟩

/-- Whether every character of a string is a lowercase hexadecimal digit
(0-9 or a-f). -/
def isLowerHexStr (s : String) : Bool :=
  s.data.all fun c => c.isDigit || ('a' ≤ c && c ≤ 'f')

/-- The assumption the spec makes of the external crypto library: an
accumulator's hex digests consist of lowercase hexadecimal characters. -/
def lowerHexAlg (h : HashAlg) : Prop :=
  (∀ bytes, isLowerHexStr (h.hexdigest bytes) = true) ∧
  (∀ bytes n, isLowerHexStr (h.hexdigestLen bytes n) = true)

theorem digest_ok_lowerHex (reg : Registry) (f : ByteSource) (alg : String)
    (bufsize : Int) (dl : Option Int) (halg : HashAlg) (d : String)
    (hreg : reg alg = some halg) (hl : lowerHexAlg halg)
    (hok : digest reg f alg bufsize dl = DigestOutcome.ok d) :
    isLowerHexStr d = true := by
  unfold digest at hok
  rw [hreg] at hok
  dsimp only at hok
  cases hrl : readLoop f [] with
  | error m =>
      rw [hrl] at hok
      exact DigestOutcome.noConfusion hok
  | ok bytes =>
      rw [hrl] at hok
      dsimp only at hok
      unfold finalizeHex at hok
      cases dl with
      | some n =>
          dsimp only at hok
          by_cases hv : halg.varLength = true
          · rw [if_pos hv] at hok
            injection hok with h'
            rw [← h']
            exact hl.2 bytes n
          · rw [if_neg hv] at hok
            exact DigestOutcome.noConfusion hok
      | none =>
          dsimp only at hok
          by_cases hv : halg.varLength = true
          · rw [if_pos hv] at hok
            exact DigestOutcome.noConfusion hok
          · rw [if_neg hv] at hok
            injection hok with h'
            rw [← h']
            exact hl.1 bytes

theorem regToy_md5_lowerHex :
    ∀ halg, regToy "md5" = some halg → lowerHexAlg halg := by
  intro halg h
  have h' : some (⟨false, fun bytes => if bytes = [] then "d41d8c" else "a1b2c3",
      fun _ _ => "aa"⟩ : HashAlg) = some halg := h
  injection h' with h''
  rw [← h'']
  refine ⟨fun bytes => ?_, fun bytes n => by
    show isLowerHexStr "aa" = true
    decide⟩
  dsimp only
  by_cases hb : bytes = []
  · rw [if_pos hb]
    decide
  · rw [if_neg hb]
    decide

/-- C9: on a successful run, standard-input mode prints exactly one line,
the bare digest with no filename annotation, and file mode prints one line
per processed file of the form `UPPERCASED-ALGORITHM (path): digest`; in
both modes the printed digest consists of lowercase hexadecimal
characters (given a crypto library whose hex digests are lowercase hex). -/
theorem output_format (reg : Registry) (algorithms : List String)
    (fs : FileSystem) (stdinSrc : ByteSource) (raw : RawArgs) (w : Bool)
    (p : Params) (halg : HashAlg)
    (hp : parse_params algorithms raw = ParseOutcome.ok w p)
    (hreg : reg p.algorithm = some halg) (hl : lowerHexAlg halg) :
    (∀ d, p.paths = [] →
      digest reg stdinSrc p.algorithm p.buffer_size p.digest_length
        = DigestOutcome.ok d →
      (mainRun reg algorithms fs stdinSrc raw).stdout = [d] ∧
      isLowerHexStr d = true) ∧
    (p.paths ≠ [] →
      (∀ path ∈ p.paths, fs.isfile path = true) →
      (∀ path ∈ p.paths, ∃ d, digest reg (fs.contents path) p.algorithm
        p.buffer_size p.digest_length = DigestOutcome.ok d) →
      (mainRun reg algorithms fs stdinSrc raw).stdout
        = p.paths.map (fun path =>
            p.algorithm.toUpper ++ " (" ++ path ++ "): " ++
              extractHex (digest reg (fs.contents path) p.algorithm
                p.buffer_size p.digest_length)) ∧
      (∀ path ∈ p.paths,
        isLowerHexStr (extractHex (digest reg (fs.contents path) p.algorithm
          p.buffer_size p.digest_length)) = true)) := by
  constructor
  · intro d he hd
    refine ⟨?_, digest_ok_lowerHex reg stdinSrc p.algorithm p.buffer_size
      p.digest_length halg d hreg hl hd⟩
    unfold mainRun
    rw [hp]
    dsimp only
    rw [he]
    rw [if_pos (show ([] : List String).isEmpty = true from rfl)]
    rw [hd]
  · intro hne hfile hok
    have hempty : p.paths.isEmpty = false := by
      cases hpp : p.paths with
      | nil => exact absurd hpp hne
      | cons a l => rfl
    have hproc := processPaths_all_ok reg fs p p.paths
      (fun path hq _ => hok path hq)
    have hline : ∀ path ∈ p.paths,
        pathLine reg fs p path
          = p.algorithm.toUpper ++ " (" ++ path ++ "): " ++
              extractHex (digest reg (fs.contents path) p.algorithm
                p.buffer_size p.digest_length) := by
      intro path hq
      unfold pathLine
      rw [if_pos (hfile path hq)]
    constructor
    · unfold mainRun
      rw [hp]
      dsimp only
      rw [hempty]
      rw [if_neg Bool.false_ne_true]
      rw [hproc]
      dsimp only
      exact List.map_congr_left hline
    · intro path hq
      obtain ⟨d, hd⟩ := hok path hq
      rw [hd]
      exact digest_ok_lowerHex reg (fs.contents path) p.algorithm
        p.buffer_size p.digest_length halg d hreg hl hd

theorem output_format_witness :
    parse_params ["md5"] ⟨none, none, some "md5", []⟩
      = ParseOutcome.ok false ⟨BUFSIZE, none, "md5", []⟩ ∧
    digest regToy [ReadResult.bytes [1]] "md5" BUFSIZE none
      = DigestOutcome.ok "a1b2c3" ∧
    (mainRun regToy ["md5"] fsToy [ReadResult.bytes [1]]
        ⟨none, none, some "md5", []⟩).stdout = ["a1b2c3"] ∧
    isLowerHexStr "a1b2c3" = true := by
  refine ⟨by decide, by decide, ?_⟩
  exact (output_format regToy ["md5"] fsToy [ReadResult.bytes [1]]
      ⟨none, none, some "md5", []⟩ false ⟨BUFSIZE, none, "md5", []⟩
      ⟨false, fun bytes => if bytes = [] then "d41d8c" else "a1b2c3",
        fun _ _ => "aa"⟩
      (by decide) rfl (regToy_md5_lowerHex _ rfl)).1
    "a1b2c3" rfl (by decide)

/-- C10: calling `digest` directly with a digest length and a fixed-length
algorithm does not ignore the length — the length is passed to the
accumulator's finalization, the resulting `TypeError` is caught, and the
call raises `DigestError`; moreover no such call ever succeeds, and every
outcome of `digest`, whatever the failure, is either a success or a
`DigestError` (never any other exception). -/
theorem direct_call_length_not_ignored (reg : Registry) (f : ByteSource)
    (alg : String) (bufsize : Int) (n : Int) (halg : HashAlg)
    (hreg : reg alg = some halg) (hfix : halg.varLength = false) :
    (∀ bytes, readLoop f [] = Except.ok bytes →
      digest reg f alg bufsize (some n)
        = DigestOutcome.digestError (alg ++ ": " ++ hexdigestTakesNoArgMsg)) ∧
    (∀ d, digest reg f alg bufsize (some n) ≠ DigestOutcome.ok d) ∧
    (∀ (g : ByteSource) (a : String) (b : Int) (dl : Option Int),
      (∃ d, digest reg g a b dl = DigestOutcome.ok d) ∨
      (∃ m, digest reg g a b dl = DigestOutcome.digestError m)) := by
  have hv : ¬ halg.varLength = true := by
    rw [hfix]
    exact Bool.false_ne_true
  refine ⟨?_, ?_, ?_⟩
  · intro bytes hb
    unfold digest
    rw [hreg]
    dsimp only
    rw [hb]
    dsimp only
    unfold finalizeHex
    dsimp only
    rw [if_neg hv]
  · intro d hc
    unfold digest at hc
    rw [hreg] at hc
    dsimp only at hc
    cases hrl : readLoop f [] with
    | error m =>
        rw [hrl] at hc
        exact DigestOutcome.noConfusion hc
    | ok bytes =>
        rw [hrl] at hc
        dsimp only at hc
        unfold finalizeHex at hc
        dsimp only at hc
        rw [if_neg hv] at hc
        exact DigestOutcome.noConfusion hc
  · intro g a b dl
    cases hout : digest reg g a b dl with
    | ok d => exact Or.inl ⟨d, rfl⟩
    | digestError m => exact Or.inr ⟨m, rfl⟩

theorem direct_call_length_not_ignored_witness :
    regToy "md5"
      = some ⟨false, fun bytes => if bytes = [] then "d41d8c" else "a1b2c3",
          fun _ _ => "aa"⟩ ∧
    readLoop [ReadResult.bytes [9]] [] = Except.ok [9] ∧
    digest regToy [ReadResult.bytes [9]] "md5" 4 (some 5)
      = DigestOutcome.digestError ("md5" ++ ": " ++ hexdigestTakesNoArgMsg) :=
  ⟨rfl, rfl,
    (direct_call_length_not_ignored regToy [ReadResult.bytes [9]] "md5" 4 5
      ⟨false, fun bytes => if bytes = [] then "d41d8c" else "a1b2c3",
        fun _ _ => "aa"⟩ rfl rfl).1 [9] rfl⟩

end Digest
